import Mathlib

/-
  Shallow embedding of the Metro instance-lifecycle manager
  (src/src/server.ts, class MetroService).

  Modelling choices:
  * The JS `Map<string, MetroInstance>` is an insertion-ordered association
    list `List (String × MetroInstance)`; `Map.get/set/delete` become
    `alGet/alSet/alDel`.
  * Timestamps (`new Date()` / `getTime()`) are `Nat` milliseconds supplied by
    an `Env`; all `new Date()` calls inside one operation read the same clock.
  * The filesystem is a finite map from paths (lists of components) to file
    contents; directories are implicit.  `fs.rm(recursive)` removes every file
    under the prefix, `fs.writeFile` inserts/overwrites.
  * External effects (npm install, the readiness probe, ngrok, file writes)
    are decided by the `Env`; every operation additionally returns a trace of
    the side effects it performed (signals sent, processes spawned, tunnels
    opened/closed, files written).
  * Child-process handles are fresh `Nat` pids drawn from a counter.
  * JS truthiness on `tunnelUrl`/`port` (`if (!port)`, `if (existing.tunnelUrl)`)
    is modelled faithfully: `none` and `some ""` (resp. port `0`) are falsy.
-/

namespace Metro

/-- File system paths as lists of components; `p ++ q` is `path.join`. -/
abbrev Path := List String

/-- Association-list lookup of the first binding of a key. -/
def alGet {α β : Type} [DecidableEq α] (k : α) : List (α × β) → Option β
  | [] => none
  | (k', v) :: rest => if k' = k then some v else alGet k rest

/-- Association-list update: replace the first binding in place (JS `Map.set`
keeps insertion order), append at the end when absent. -/
def alSet {α β : Type} [DecidableEq α] (k : α) (v : β) : List (α × β) → List (α × β)
  | [] => [(k, v)]
  | (k', v') :: rest => if k' = k then (k, v) :: rest else (k', v') :: alSet k v rest

/-- Association-list deletion of every binding of a key (JS `Map.delete`;
identical behaviour given unique keys). -/
def alDel {α β : Type} [DecidableEq α] (k : α) : List (α × β) → List (α × β)
  | [] => []
  | (k', v') :: rest => if k' = k then alDel k rest else (k', v') :: alDel k rest

/-- JS truthiness of an optional string: `undefined` and `""` are falsy. -/
def truthy : Option String → Bool
  | none => false
  | some u => !(u == "")

/-- The `MetroInstance` record interface of server.ts.  `process` is the pid of
the owned child process; `workspaceDir` is a path; times are millis. -/
structure MetroInstance where
  appId : String
  appName : String
  process : Nat
  workspaceDir : Path
  port : Nat
  tunnelUrl : Option String := none
  bundleUrl : Option String := none
  startTime : Nat
  lastAccess : Nat
  isReady : Bool
deriving DecidableEq, Repr

/-- Contents of the file system: files only, directories implicit. -/
abbrev FS := List (Path × String)

/-- The mutable fields of the `MetroService` class, plus the modelled file
system and the pid counter. -/
structure ServiceState where
  instances : List (String × MetroInstance)
  portPool : List Nat
  currentPortIndex : Nat
  fs : FS
  nextPid : Nat
deriving DecidableEq, Repr

/-- METRO_TIMEOUT: 15 minutes in milliseconds. -/
def METRO_TIMEOUT : Nat := 15 * 60 * 1000

/-- PORT_RANGE_START. -/
def PORT_RANGE_START : Nat := 8081

/-- PORT_RANGE_END. -/
def PORT_RANGE_END : Nat := 8180

/-- WORKSPACE_BASE ('/tmp/metro-apps') as a component path. -/
def WORKSPACE_BASE : Path := ["tmp", "metro-apps"]

/-- initializePortPool: the ports PORT_RANGE_START .. PORT_RANGE_END in order. -/
def initializePortPool : List Nat :=
  (List.range (PORT_RANGE_END + 1 - PORT_RANGE_START)).map (fun i => PORT_RANGE_START + i)

/-- The state of a freshly constructed MetroService. -/
def initState : ServiceState :=
  { instances := []
    portPool := initializePortPool
    currentPortIndex := 0
    fs := []
    nextPid := 0 }

/-- getNextPort: returns `portPool[currentPortIndex % length]` and advances the
cursor modulo the pool length; `null` when the pool is empty. -/
def getNextPort (s : ServiceState) : Option Nat × ServiceState :=
  if s.portPool.length = 0 then (none, s)
  else
    (s.portPool.get? (s.currentPortIndex % s.portPool.length),
     { s with currentPortIndex := (s.currentPortIndex + 1) % s.portPool.length })

/-- Environment: the clock and the outcomes of the external effects consumed
by one operation (file writes, npm install, per-attempt readiness probe,
ngrok connect). -/
structure Env where
  now : Nat
  writeOk : Path → Bool
  installOk : Bool
  probeOk : Nat → Bool
  tunnelResult : Option String

/-- Observable side effects, recorded as a trace. -/
inductive MEvent where
  | portAlloc : Nat → MEvent
  | rmDir : Path → MEvent
  | mkdir : Path → MEvent
  | writeFile : Path → String → MEvent
  | npmInstall : Path → MEvent
  | spawn : Nat → Path → Nat → MEvent
  | killSigterm : Nat → MEvent
  | scheduleSigkill : Nat → MEvent
  | tunnelConnect : Nat → String → MEvent
  | tunnelDisconnect : String → MEvent
deriving DecidableEq, Repr

/-- Recursive `fs.rm(dir, recursive)`: drop every file under `dir`. -/
def rmRecursive (fs : FS) (dir : Path) : FS :=
  fs.filter (fun e => !(dir.isPrefixOf e.1))

/-- The write loop of createWorkspace: for each `[relativePath, content]` entry
make the parent directory and write the file; the first failing write throws
(`some errorMessage`), leaving the earlier writes in place. -/
def writeFilesLoop (env : Env) (dir : Path) :
    List (Path × String) → FS → Option String × FS × List MEvent
  | [], fs => (none, fs, [])
  | (rel, content) :: rest, fs =>
      let full := dir ++ rel
      if env.writeOk full then
        let r := writeFilesLoop env dir rest (alSet full content fs)
        (r.1, r.2.1, MEvent.mkdir full.dropLast :: MEvent.writeFile full content :: r.2.2)
      else (some "workspace write failed", fs, [MEvent.mkdir full.dropLast])

/-- createWorkspace: best-effort recursive delete of the workspace dir,
recreate it, then write all app files; rethrows the first write error. -/
def createWorkspace (env : Env) (fs : FS) (dir : Path)
    (files : List (Path × String)) : Option String × FS × List MEvent :=
  let r := writeFilesLoop env dir files (rmRecursive fs dir)
  (r.1, r.2.1, MEvent.rmDir dir :: MEvent.mkdir dir :: r.2.2)

/-- installDependencies: `npm install` in the workspace; rejects on failure. -/
def installDependencies (env : Env) (dir : Path) : Option String × List MEvent :=
  if env.installOk then (none, [MEvent.npmInstall dir])
  else (some "npm install failed", [MEvent.npmInstall dir])

/-- startMetroProcess: install dependencies, then spawn the dev server in the
workspace on the given port, returning the fresh pid. -/
def startMetroProcess (env : Env) (s : ServiceState) (dir : Path) (port : Nat) :
    Except String (Nat × ServiceState) × List MEvent :=
  match installDependencies env dir with
  | (some e, tr) => (Except.error e, tr)
  | (none, tr) =>
      (Except.ok (s.nextPid, { s with nextPid := s.nextPid + 1 }),
       tr ++ [MEvent.spawn s.nextPid dir port])

/-- Readiness loop body: try attempts `attempt, attempt+1, ...` while fuel
lasts, succeeding as soon as one probe answers OK. -/
def waitForMetroReadyAux (env : Env) : Nat → Nat → Bool
  | 0, _ => false
  | fuel + 1, attempt =>
      if env.probeOk attempt then true else waitForMetroReadyAux env fuel (attempt + 1)

/-- waitForMetroReady: up to `maxAttempts` probes of `GET /status`, counted
from attempt 1. -/
def waitForMetroReady (env : Env) (maxAttempts : Nat) : Bool :=
  waitForMetroReadyAux env maxAttempts 1

/-- createTunnel: ngrok connect; `none` when the provider fails (the source
catches the error and returns null). -/
def createTunnel (env : Env) (port : Nat) : Option String × List MEvent :=
  match env.tunnelResult with
  | some url => (some url, [MEvent.tunnelConnect port url])
  | none => (none, [])

/-- stopMetro: on an unknown appId return false with no effects; otherwise
SIGTERM the owned process, schedule the forced SIGKILL, disconnect the tunnel
when one is recorded (JS truthiness), delete the registry entry, return true. -/
def stopMetro (s : ServiceState) (appId : String) : Bool × ServiceState × List MEvent :=
  match alGet appId s.instances with
  | none => (false, s, [])
  | some inst =>
      (true,
       { s with instances := alDel appId s.instances },
       MEvent.killSigterm inst.process :: MEvent.scheduleSigkill inst.process ::
         (if truthy inst.tunnelUrl then [MEvent.tunnelDisconnect (inst.tunnelUrl.getD "")] else []))

/-- The record returned by getStatus. -/
structure StatusInfo where
  appId : String
  appName : String
  port : Nat
  tunnelUrl : Option String
  bundleUrl : Option String
  isReady : Bool
  uptime : Nat
  lastAccess : Nat
deriving DecidableEq, Repr

/-- getStatus: pure read; `null` for an unknown appId. -/
def getStatus (now : Nat) (s : ServiceState) (appId : String) : Option StatusInfo :=
  match alGet appId s.instances with
  | none => none
  | some inst =>
      some { appId := inst.appId
             appName := inst.appName
             port := inst.port
             tunnelUrl := inst.tunnelUrl
             bundleUrl := inst.bundleUrl
             isReady := inst.isReady
             uptime := now - inst.startTime
             lastAccess := now - inst.lastAccess }

/-- The appIds collected by the reaper sweep: those whose time since last
access exceeds METRO_TIMEOUT. -/
def staleIds (now : Nat) (m : List (String × MetroInstance)) : List String :=
  (m.filter (fun e => decide (METRO_TIMEOUT < now - e.2.lastAccess))).map (fun e => e.1)

/-- Stop each collected appId in turn (the reaper's second loop). -/
def stopAll (s : ServiceState) : List String → ServiceState × List MEvent
  | [] => (s, [])
  | a :: rest =>
      let r1 := stopMetro s a
      let r2 := stopAll r1.2.1 rest
      (r2.1, r1.2.2 ++ r2.2)

/-- cleanupInactiveInstances: one reaper sweep at time `now`. -/
def cleanupInactiveInstances (now : Nat) (s : ServiceState) : ServiceState × List MEvent :=
  stopAll s (staleIds now s.instances)

/-- The result record of startMetro. -/
structure StartResult where
  success : Bool
  tunnelUrl : Option String := none
  bundleUrl : Option String := none
  port : Option Nat := none
  error : Option String := none
deriving DecidableEq, Repr

/-- Failure result with a stage-specific message. -/
def StartResult.fail (e : String) : StartResult :=
  { success := false, error := some e }

/-- The query-string suffix appended to the tunnel URL to form bundleUrl. -/
def bundleSuffix : String := "/index.bundle?platform=ios&dev=true&minify=false"

/-- The start pipeline after the reuse check: allocate a port, provision the
workspace, install and spawn, insert into the registry, probe readiness, open
the tunnel; any stage failure stops the pipeline, cleans up what this request
allocated after the registry insert, and returns a failure result. -/
def startMetroPipeline (env : Env) (s : ServiceState) (appId appName : String)
    (files : List (Path × String)) : StartResult × ServiceState × List MEvent :=
  match getNextPort s with
  | (none, s1) => (StartResult.fail "No available ports for Metro instance", s1, [])
  | (some port, s1) =>
    if port = 0 then
      (StartResult.fail "No available ports for Metro instance", s1, [MEvent.portAlloc port])
    else
      let workspaceDir := WORKSPACE_BASE ++ [appId]
      match createWorkspace env s1.fs workspaceDir files with
      | (some e, fs2, trW) =>
          (StartResult.fail e, { s1 with fs := fs2 },
           MEvent.portAlloc port :: trW)
      | (none, fs2, trW) =>
        let s2 := { s1 with fs := fs2 }
        match startMetroProcess env s2 workspaceDir port with
        | (Except.error e, trP) =>
            (StartResult.fail e, s2, MEvent.portAlloc port :: (trW ++ trP))
        | (Except.ok (pid, s3), trP) =>
          let inst : MetroInstance :=
            { appId := appId
              appName := appName
              process := pid
              workspaceDir := workspaceDir
              port := port
              startTime := env.now
              lastAccess := env.now
              isReady := false }
          let s4 := { s3 with instances := alSet appId inst s3.instances }
          if waitForMetroReady env 30 then
            match createTunnel env port with
            | (some url, trT) =>
              if url = "" then
                let r := stopMetro s4 appId
                (StartResult.fail "Failed to create ngrok tunnel", r.2.1,
                 MEvent.portAlloc port :: (trW ++ trP ++ trT ++ r.2.2))
              else
                let inst2 := { inst with
                  tunnelUrl := some url
                  bundleUrl := some (url ++ bundleSuffix)
                  isReady := true }
                ({ success := true
                   tunnelUrl := some url
                   bundleUrl := some (url ++ bundleSuffix)
                   port := some port },
                 { s4 with instances := alSet appId inst2 s4.instances },
                 MEvent.portAlloc port :: (trW ++ trP ++ trT))
            | (none, trT) =>
              let r := stopMetro s4 appId
              (StartResult.fail "Failed to create ngrok tunnel", r.2.1,
               MEvent.portAlloc port :: (trW ++ trP ++ trT ++ r.2.2))
          else
            let r := stopMetro s4 appId
            (StartResult.fail "Metro failed to start within timeout", r.2.1,
             MEvent.portAlloc port :: (trW ++ trP ++ r.2.2))

/-- startMetro: reuse an existing ready instance (refreshing lastAccess),
otherwise refresh lastAccess on a stale record if any and run the pipeline. -/
def startMetro (env : Env) (s : ServiceState) (appId appName : String)
    (files : List (Path × String)) : StartResult × ServiceState × List MEvent :=
  match alGet appId s.instances with
  | some existing =>
    let s0 := { s with instances :=
                  alSet appId { existing with lastAccess := env.now } s.instances }
    if existing.isReady && truthy existing.tunnelUrl then
      ({ success := true
         tunnelUrl := existing.tunnelUrl
         bundleUrl := existing.bundleUrl
         port := some existing.port }, s0, [])
    else
      startMetroPipeline env s0 appId appName files
  | none => startMetroPipeline env s appId appName files

/-- Well-formedness preserved by the sequential semantics: every record held
between operations is fully ready with a truthy tunnelUrl. -/
def registryReadyB (s : ServiceState) : Bool :=
  s.instances.all (fun e => e.2.isReady && truthy e.2.tunnelUrl)

/-- Unique keys, as the JS Map guarantees. -/
def keysNodup (m : List (String × MetroInstance)) : Prop :=
  (m.map (fun e => e.1)).Nodup

/-- The service state after `n` calls to getNextPort. -/
def nthAllocState (s : ServiceState) : Nat → ServiceState
  | 0 => s
  | n + 1 => (getNextPort (nthAllocState s n)).2

/-- The port returned by the n-th call to getNextPort (counting from 0). -/
def nthAllocResult (s : ServiceState) (n : Nat) : Option Nat :=
  (getNextPort (nthAllocState s n)).1

/-- The fully-ready record inserted by a successful run of the start
pipeline, with pid drawn from the pre-state's counter. -/
def readyInst (env : Env) (s : ServiceState) (a n : String) (p : Nat)
    (u : String) : MetroInstance :=
  { appId := a
    appName := n
    process := s.nextPid
    workspaceDir := WORKSPACE_BASE ++ [a]
    port := p
    tunnelUrl := some u
    bundleUrl := some (u ++ bundleSuffix)
    startTime := env.now
    lastAccess := env.now
    isReady := true }

/-- An environment in which every external effect succeeds. -/
def envOK : Env :=
  { now := 0
    writeOk := fun _ => true
    installOk := true
    probeOk := fun _ => true
    tunnelResult := some "https://t.example" }

/-- envOK with a failing npm install: the start fails after consuming a port. -/
def envInstallFail : Env := { envOK with installOk := false }

/-- One failed start ("c") that still advances the round-robin cursor. -/
def burnOne (s : ServiceState) : ServiceState :=
  (startMetro envInstallFail s "c" "C" []).2.1

/-- Successful start of "a", then 100 further allocator-consuming starts the
last of which ("b") succeeds: the cursor has wrapped, so "a" and "b" are both
live on port 8081. -/
def c1State : ServiceState :=
  let s1 := (startMetro envOK initState "a" "A" []).2.1
  (startMetro envOK (burnOne^[99] s1) "b" "B" []).2.1

/-- A not-ready record (an in-flight start as the registry would hold it). -/
def pendingInst : MetroInstance :=
  { appId := "x"
    appName := "X"
    process := 7
    workspaceDir := WORKSPACE_BASE ++ ["x"]
    port := 8081
    startTime := 0
    lastAccess := 0
    isReady := false }

/-- A state holding only the not-ready record `pendingInst`. -/
def pendingState : ServiceState :=
  { initState with instances := [("x", pendingInst)] }

/-- A fully-ready record, for concrete witness states. -/
def liveInst : MetroInstance :=
  { appId := "w"
    appName := "W"
    process := 3
    workspaceDir := WORKSPACE_BASE ++ ["w"]
    port := 8090
    tunnelUrl := some "https://w.example"
    bundleUrl := some ("https://w.example" ++ bundleSuffix)
    startTime := 0
    lastAccess := 0
    isReady := true }

/-- A state holding only the ready record `liveInst`. -/
def liveState : ServiceState :=
  { initState with instances := [("w", liveInst)] }

/-! ### Association list lemmas -/

theorem alGet_alSet_self {α β : Type} [DecidableEq α] (k : α) (v : β) (m : List (α × β)) :
    alGet k (alSet k v m) = some v := by
  induction m with
  | nil => simp [alGet, alSet]
  | cons e rest ih =>
    obtain ⟨a, b⟩ := e
    by_cases h : a = k
    · subst h
      simp [alSet, alGet]
    · simp [alSet, alGet, h, ih]

theorem alGet_alSet_ne {α β : Type} [DecidableEq α] {k k' : α} (v : β) (m : List (α × β))
    (h : k' ≠ k) : alGet k' (alSet k v m) = alGet k' m := by
  induction m with
  | nil => simp [alGet, alSet, Ne.symm h]
  | cons e rest ih =>
    obtain ⟨a, b⟩ := e
    by_cases ha : a = k
    · subst ha
      simp [alSet, alGet, Ne.symm h]
    · by_cases ha' : a = k'
      · simp [alSet, alGet, ha, ha', h]
      · simp [alSet, alGet, ha, ha', ih]

theorem alGet_alDel_self {α β : Type} [DecidableEq α] (k : α) (m : List (α × β)) :
    alGet k (alDel k m) = none := by
  induction m with
  | nil => simp [alGet, alDel]
  | cons e rest ih =>
    obtain ⟨a, b⟩ := e
    by_cases h : a = k
    · simp [alDel, h, ih]
    · simp [alDel, alGet, h, ih]

theorem alGet_alDel_ne {α β : Type} [DecidableEq α] {k k' : α} (m : List (α × β))
    (h : k' ≠ k) : alGet k' (alDel k m) = alGet k' m := by
  induction m with
  | nil => simp [alDel]
  | cons e rest ih =>
    obtain ⟨a, b⟩ := e
    by_cases ha : a = k
    · subst ha
      simp [alDel, alGet, Ne.symm h, ih]
    · by_cases ha' : a = k'
      · simp [alDel, alGet, ha, ha', h, ih]
      · simp [alDel, alGet, ha, ha', ih]

theorem alSet_alSet {α β : Type} [DecidableEq α] (k : α) (v v' : β) (m : List (α × β)) :
    alSet k v' (alSet k v m) = alSet k v' m := by
  induction m with
  | nil => simp [alSet]
  | cons e rest ih =>
    obtain ⟨a, b⟩ := e
    by_cases h : a = k
    · simp [alSet, h]
    · simp [alSet, h, ih]

theorem mem_of_alGet {α β : Type} [DecidableEq α] {k : α} {v : β} {m : List (α × β)}
    (h : alGet k m = some v) : (k, v) ∈ m := by
  induction m with
  | nil => simp [alGet] at h
  | cons e rest ih =>
    obtain ⟨a, b⟩ := e
    by_cases he : a = k
    · subst he
      simp only [alGet, if_pos rfl] at h
      injection h with h
      subst h
      exact List.mem_cons_self _ _
    · simp only [alGet, if_neg he] at h
      exact List.mem_cons_of_mem _ (ih h)

theorem alGet_of_mem {α β : Type} [DecidableEq α] {k : α} {v : β} {m : List (α × β)}
    (hn : (m.map (fun e => e.1)).Nodup) (h : (k, v) ∈ m) : alGet k m = some v := by
  induction m with
  | nil => simp at h
  | cons e rest ih =>
    obtain ⟨a, b⟩ := e
    simp only [List.map_cons, List.nodup_cons] at hn
    rcases List.mem_cons.mp h with h1 | h1
    · injection h1 with h1a h1b
      subst h1a
      subst h1b
      simp [alGet]
    · have ha : a ≠ k := by
        intro hc
        refine hn.1 ?_
        rw [hc]
        exact List.mem_map.mpr ⟨(k, v), h1, rfl⟩
      simp only [alGet, if_neg ha]
      exact ih hn.2 h1

/-! ### Port allocator lemmas -/

theorem initializePortPool_length : initializePortPool.length = 100 := by
  simp [initializePortPool, PORT_RANGE_START, PORT_RANGE_END]

theorem getNextPort_portPool (s : ServiceState) :
    (getNextPort s).2.portPool = s.portPool := by
  unfold getNextPort
  split <;> rfl

theorem nthAllocState_portPool (s : ServiceState) (n : Nat) :
    (nthAllocState s n).portPool = s.portPool := by
  induction n with
  | zero => rfl
  | succ n ih => simpa [nthAllocState, getNextPort_portPool] using ih

theorem nthAllocState_init_idx (n : Nat) :
    (nthAllocState initState n).currentPortIndex = n % 100 := by
  induction n with
  | zero => rfl
  | succ n ih =>
    have hp : (nthAllocState initState n).portPool = initializePortPool :=
      nthAllocState_portPool initState n
    show (getNextPort (nthAllocState initState n)).2.currentPortIndex = (n + 1) % 100
    unfold getNextPort
    rw [hp, initializePortPool_length]
    rw [if_neg (by norm_num : ¬(100 = 0))]
    dsimp only
    rw [ih]
    omega

theorem initializePortPool_get (i : Nat) (h : i < 100) :
    initializePortPool.get? i = some (8081 + i) := by
  simp [initializePortPool, PORT_RANGE_START, PORT_RANGE_END, List.get?_eq_getElem?,
        List.getElem?_map, List.getElem?_range, h]

/-- Core round-robin fact: from a fresh service, the n-th allocator call
returns 8081 + (n mod 100), i.e. the pool entry at index n mod pool size. -/
theorem nthAllocResult_init (n : Nat) :
    nthAllocResult initState n = some (8081 + n % 100) := by
  unfold nthAllocResult getNextPort
  rw [nthAllocState_portPool, nthAllocState_init_idx]
  rw [show initState.portPool = initializePortPool from rfl, initializePortPool_length]
  rw [if_neg (by norm_num : ¬(100 = 0))]
  dsimp only
  rw [Nat.mod_mod_of_dvd _ (Nat.dvd_refl 100)]
  exact initializePortPool_get _ (Nat.mod_lt _ (by norm_num))

/-! ### stopMetro lemmas -/

theorem stopMetro_absent {s : ServiceState} {a : String}
    (h : alGet a s.instances = none) : stopMetro s a = (false, s, []) := by
  unfold stopMetro
  rw [h]

theorem stopMetro_present {s : ServiceState} {a : String} {inst : MetroInstance}
    (h : alGet a s.instances = some inst) :
    stopMetro s a =
      (true, { s with instances := alDel a s.instances },
       MEvent.killSigterm inst.process :: MEvent.scheduleSigkill inst.process ::
         (if truthy inst.tunnelUrl then [MEvent.tunnelDisconnect (inst.tunnelUrl.getD "")]
          else [])) := by
  unfold stopMetro
  rw [h]

theorem alGet_stopMetro_self (s : ServiceState) (a : String) :
    alGet a (stopMetro s a).2.1.instances = none := by
  unfold stopMetro
  match h : alGet a s.instances with
  | none => simpa using h
  | some inst => simpa using alGet_alDel_self a s.instances

theorem alGet_stopMetro_ne (s : ServiceState) {a b : String} (h : b ≠ a) :
    alGet b (stopMetro s a).2.1.instances = alGet b s.instances := by
  unfold stopMetro
  match hg : alGet a s.instances with
  | none => rfl
  | some inst => simpa using alGet_alDel_ne s.instances h

theorem stopMetro_portPool (s : ServiceState) (a : String) :
    (stopMetro s a).2.1.portPool = s.portPool := by
  unfold stopMetro
  match hg : alGet a s.instances with
  | none => rfl
  | some inst => rfl

theorem stopMetro_idx (s : ServiceState) (a : String) :
    (stopMetro s a).2.1.currentPortIndex = s.currentPortIndex := by
  unfold stopMetro
  match hg : alGet a s.instances with
  | none => rfl
  | some inst => rfl

theorem stopMetro_fs (s : ServiceState) (a : String) :
    (stopMetro s a).2.1.fs = s.fs := by
  unfold stopMetro
  match hg : alGet a s.instances with
  | none => rfl
  | some inst => rfl

theorem stopMetro_nextPid (s : ServiceState) (a : String) :
    (stopMetro s a).2.1.nextPid = s.nextPid := by
  unfold stopMetro
  match hg : alGet a s.instances with
  | none => rfl
  | some inst => rfl

/-! ### Reaper sweep lemmas -/

theorem mem_staleIds {now : Nat} {m : List (String × MetroInstance)} {a : String}
    (hn : keysNodup m) :
    a ∈ staleIds now m ↔
      ∃ inst, alGet a m = some inst ∧ METRO_TIMEOUT < now - inst.lastAccess := by
  unfold staleIds
  constructor
  · intro h
    obtain ⟨e, he, rfl⟩ := List.mem_map.mp h
    obtain ⟨hmem, hstale⟩ := List.mem_filter.mp he
    exact ⟨e.2, alGet_of_mem hn (by simpa using hmem), by simpa using hstale⟩
  · rintro ⟨inst, hg, hstale⟩
    exact List.mem_map.mpr ⟨(a, inst),
      List.mem_filter.mpr ⟨mem_of_alGet hg, by simpa using hstale⟩, rfl⟩

theorem staleIds_nodup {now : Nat} {m : List (String × MetroInstance)}
    (hn : keysNodup m) : (staleIds now m).Nodup := by
  unfold staleIds
  have hsub : List.Sublist
      ((m.filter (fun e => decide (METRO_TIMEOUT < now - e.2.lastAccess))).map
        (fun e => e.1))
      (m.map (fun e => e.1)) :=
    (List.filter_sublist m).map (fun e => e.1)
  exact hn.sublist hsub

theorem alGet_stopAll_not_mem (l : List String) (s : ServiceState) {a : String}
    (h : a ∉ l) : alGet a (stopAll s l).1.instances = alGet a s.instances := by
  induction l generalizing s with
  | nil => rfl
  | cons x rest ih =>
    unfold stopAll
    dsimp only
    rw [ih _ (fun hc => h (List.mem_cons_of_mem _ hc)),
        alGet_stopMetro_ne _ (fun hc : a = x => h (hc ▸ List.mem_cons_self _ _))]

/-! ### Workspace provisioning lemmas -/

theorem isPrefixOf_append (dir rel : Path) : dir.isPrefixOf (dir ++ rel) = true :=
  List.isPrefixOf_iff_prefix.mpr (List.prefix_append dir rel)

theorem rmRecursive_cons (dir q : Path) (c : String) (rest : FS) :
    rmRecursive ((q, c) :: rest) dir =
      if dir.isPrefixOf q = true then rmRecursive rest dir
      else (q, c) :: rmRecursive rest dir := by
  unfold rmRecursive
  rw [List.filter_cons]
  by_cases h : dir.isPrefixOf q = true
  · rw [if_pos h]
    simp [h]
  · rw [if_neg h]
    simp [Bool.of_not_eq_true h]

theorem alGet_rmRecursive_under {fs : FS} {dir p : Path}
    (h : dir.isPrefixOf p = true) : alGet p (rmRecursive fs dir) = none := by
  induction fs with
  | nil => rfl
  | cons e rest ih =>
    obtain ⟨q, c⟩ := e
    rw [rmRecursive_cons]
    by_cases hq : dir.isPrefixOf q = true
    · rw [if_pos hq]
      exact ih
    · rw [if_neg hq]
      have hne : q ≠ p := fun hc => hq (by rw [hc]; exact h)
      simpa [alGet, hne] using ih

theorem alGet_rmRecursive_not_under {fs : FS} {dir p : Path}
    (h : dir.isPrefixOf p = false) : alGet p (rmRecursive fs dir) = alGet p fs := by
  induction fs with
  | nil => rfl
  | cons e rest ih =>
    obtain ⟨q, c⟩ := e
    rw [rmRecursive_cons]
    by_cases hq : dir.isPrefixOf q = true
    · rw [if_pos hq]
      have hne : q ≠ p := fun hc => by rw [hc] at hq; rw [hq] at h; cases h
      simp [alGet, hne, ih]
    · rw [if_neg hq]
      by_cases hqp : q = p
      · simp [alGet, hqp]
      · simp [alGet, hqp, ih]

theorem writeFilesLoop_events {env : Env} {dir : Path} {files : List (Path × String)}
    {fs : FS} {e : MEvent} (h : e ∈ (writeFilesLoop env dir files fs).2.2) :
    (∃ p, e = MEvent.mkdir p) ∨ ∃ p c, e = MEvent.writeFile p c := by
  induction files generalizing fs with
  | nil => simp [writeFilesLoop] at h
  | cons f rest ih =>
    obtain ⟨rel, c⟩ := f
    by_cases hw : env.writeOk (dir ++ rel)
    · simp only [writeFilesLoop, hw, if_true, List.mem_cons] at h
      rcases h with h | h | h
      · exact Or.inl ⟨_, h⟩
      · exact Or.inr ⟨_, _, h⟩
      · exact ih h
    · simp only [writeFilesLoop, hw] at h
      simp at h
      exact Or.inl ⟨_, h⟩

theorem writeFilesLoop_ok {env : Env} {dir : Path} {files : List (Path × String)}
    {fs : FS} (h : ∀ rel c, (rel, c) ∈ files → env.writeOk (dir ++ rel) = true) :
    (writeFilesLoop env dir files fs).1 = none := by
  induction files generalizing fs with
  | nil => rfl
  | cons f rest ih =>
    obtain ⟨rel, c⟩ := f
    have hw := h rel c (List.mem_cons_self _ _)
    simp only [writeFilesLoop, hw, if_true]
    exact ih (fun r c' hm => h r c' (List.mem_cons_of_mem _ hm))

theorem writeFilesLoop_err {env : Env} {dir : Path} {files : List (Path × String)}
    {fs : FS} {rel : Path} {c : String} (hmem : (rel, c) ∈ files)
    (hw : env.writeOk (dir ++ rel) = false) :
    (writeFilesLoop env dir files fs).1.isSome = true := by
  induction files generalizing fs with
  | nil => simp at hmem
  | cons f rest ih =>
    obtain ⟨r0, c0⟩ := f
    by_cases hw0 : env.writeOk (dir ++ r0)
    · rcases List.mem_cons.mp hmem with h1 | h1
      · injection h1 with h1a h1b
        rw [h1a] at hw
        rw [hw] at hw0
        cases hw0
      · simp only [writeFilesLoop, hw0, if_true]
        exact ih h1
    · simp [writeFilesLoop, hw0]

theorem writeFilesLoop_not_written {env : Env} {dir : Path}
    {files : List (Path × String)} {fs : FS} {p : Path}
    (hp : ∀ rel c, (rel, c) ∈ files → p ≠ dir ++ rel) :
    alGet p (writeFilesLoop env dir files fs).2.1 = alGet p fs := by
  induction files generalizing fs with
  | nil => rfl
  | cons f rest ih =>
    obtain ⟨rel, c⟩ := f
    by_cases hw : env.writeOk (dir ++ rel)
    · simp only [writeFilesLoop, hw, if_true]
      exact (ih (fun r c' hm => hp r c' (List.mem_cons_of_mem _ hm))).trans
        (alGet_alSet_ne _ _ (hp rel c (List.mem_cons_self _ _)))
    · simp [writeFilesLoop, hw]

theorem writeFilesLoop_written {env : Env} {dir : Path}
    {files : List (Path × String)} {fs : FS} {rel : Path} {c : String}
    (hnd : (files.map (fun e => e.1)).Nodup) (hmem : (rel, c) ∈ files)
    (hok : (writeFilesLoop env dir files fs).1 = none) :
    alGet (dir ++ rel) (writeFilesLoop env dir files fs).2.1 = some c := by
  induction files generalizing fs with
  | nil => simp at hmem
  | cons f rest ih =>
    obtain ⟨r0, c0⟩ := f
    by_cases hw : env.writeOk (dir ++ r0)
    · simp only [writeFilesLoop, hw, if_true] at hok ⊢
      simp only [List.map_cons, List.nodup_cons] at hnd
      rcases List.mem_cons.mp hmem with h1 | h1
      · injection h1 with h1a h1b
        subst h1a
        subst h1b
        have hp : ∀ r c', (r, c') ∈ rest → dir ++ rel ≠ dir ++ r := by
          intro r c' hm hc
          exact hnd.1 (List.append_cancel_left hc ▸
            List.mem_map.mpr ⟨(r, c'), hm, rfl⟩)
        show alGet (dir ++ rel)
            (writeFilesLoop env dir rest (alSet (dir ++ rel) c fs)).2.1 = some c
        rw [writeFilesLoop_not_written hp, alGet_alSet_self]
      · exact ih hnd.2 h1 hok
    · simp [writeFilesLoop, hw] at hok

/-! ### Start pipeline lemmas -/

theorem startMetroProcess_ok {env : Env} (hI : env.installOk = true)
    (s : ServiceState) (dir : Path) (port : Nat) :
    startMetroProcess env s dir port =
      (Except.ok (s.nextPid, { s with nextPid := s.nextPid + 1 }),
       [MEvent.npmInstall dir, MEvent.spawn s.nextPid dir port]) := by
  simp [startMetroProcess, installDependencies, hI]

theorem startMetroProcess_err {env : Env} (hI : env.installOk = false)
    (s : ServiceState) (dir : Path) (port : Nat) :
    startMetroProcess env s dir port =
      (Except.error "npm install failed", [MEvent.npmInstall dir]) := by
  simp [startMetroProcess, installDependencies, hI]

theorem waitForMetroReadyAux_first {env : Env} {attempt : Nat} (fuel : Nat)
    (h : env.probeOk attempt = true) (hf : fuel ≠ 0) :
    waitForMetroReadyAux env fuel attempt = true := by
  cases fuel with
  | zero => cases hf rfl
  | succ f => simp [waitForMetroReadyAux, h]

theorem waitForMetroReady_first {env : Env} (h : env.probeOk 1 = true) :
    waitForMetroReady env 30 = true :=
  waitForMetroReadyAux_first 30 h (by norm_num)

theorem getNextPort_nonempty {s : ServiceState} {p : Nat}
    (hg : (getNextPort s).1 = some p) : ¬s.portPool.length = 0 := by
  intro h0
  unfold getNextPort at hg
  rw [if_pos h0] at hg
  cases hg

theorem getNextPort_eq {s : ServiceState} {p : Nat}
    (hg : (getNextPort s).1 = some p) :
    getNextPort s =
      (some p,
       { s with currentPortIndex := (s.currentPortIndex + 1) % s.portPool.length }) := by
  have h0 := getNextPort_nonempty hg
  have hg' : s.portPool.get? (s.currentPortIndex % s.portPool.length) = some p := by
    unfold getNextPort at hg
    rw [if_neg h0] at hg
    exact hg
  unfold getNextPort
  rw [if_neg h0, hg']

theorem getNextPort_instances (s : ServiceState) :
    (getNextPort s).2.instances = s.instances := by
  unfold getNextPort
  split <;> rfl

theorem getNextPort_fs (s : ServiceState) : (getNextPort s).2.fs = s.fs := by
  unfold getNextPort
  split <;> rfl

theorem getNextPort_nextPid (s : ServiceState) :
    (getNextPort s).2.nextPid = s.nextPid := by
  unfold getNextPort
  split <;> rfl

theorem getNextPort_fst_set_instances (s : ServiceState)
    (m : List (String × MetroInstance)) :
    (getNextPort { s with instances := m }).1 = (getNextPort s).1 := by
  unfold getNextPort
  dsimp only
  by_cases h0 : s.portPool.length = 0
  · rw [if_pos h0, if_pos h0]
  · rw [if_neg h0, if_neg h0]

theorem getNextPort_eq_none {s : ServiceState} (hg : (getNextPort s).1 = none) :
    getNextPort s = (none, s) := by
  unfold getNextPort at hg ⊢
  by_cases h0 : s.portPool.length = 0
  · rw [if_pos h0]
  · exfalso
    rw [if_neg h0] at hg
    have hlt : s.currentPortIndex % s.portPool.length < s.portPool.length :=
      Nat.mod_lt _ (Nat.pos_of_ne_zero h0)
    rw [List.get?_eq_getElem?, List.getElem?_eq_getElem hlt] at hg
    cases hg

theorem getNextPort_none_iff (s : ServiceState) :
    (getNextPort s).1 = none ↔ s.portPool = [] := by
  constructor
  · intro hg
    by_cases h0 : s.portPool.length = 0
    · exact List.length_eq_zero.mp h0
    · exfalso
      rw [getNextPort, if_neg h0] at hg
      have hlt : s.currentPortIndex % s.portPool.length < s.portPool.length :=
        Nat.mod_lt _ (Nat.pos_of_ne_zero h0)
      rw [List.get?_eq_getElem?, List.getElem?_eq_getElem hlt] at hg
      cases hg
  · intro h
    rw [getNextPort, if_pos (by rw [h]; rfl)]

theorem createWorkspace_events {env : Env} {fs : FS} {dir : Path}
    {files : List (Path × String)} {e : MEvent}
    (h : e ∈ (createWorkspace env fs dir files).2.2) :
    (∃ p, e = MEvent.rmDir p) ∨ (∃ p, e = MEvent.mkdir p) ∨
      ∃ p c, e = MEvent.writeFile p c := by
  unfold createWorkspace at h
  dsimp only at h
  rcases List.mem_cons.mp h with h1 | h1
  · exact Or.inl ⟨_, h1⟩
  rcases List.mem_cons.mp h1 with h2 | h2
  · exact Or.inr (Or.inl ⟨_, h2⟩)
  · rcases writeFilesLoop_events h2 with h3 | h3
    · exact Or.inr (Or.inl h3)
    · exact Or.inr (Or.inr h3)

theorem createWorkspace_no_spawn {env : Env} {fs : FS} {dir : Path}
    {files : List (Path × String)} {pid : Nat} {d : Path} {q : Nat} :
    MEvent.spawn pid d q ∉ (createWorkspace env fs dir files).2.2 := by
  intro h
  rcases createWorkspace_events h with ⟨p, hp⟩ | ⟨p, hp⟩ | ⟨p, c, hp⟩ <;> cases hp

theorem createWorkspace_no_tunnelConnect {env : Env} {fs : FS} {dir : Path}
    {files : List (Path × String)} {q : Nat} {url : String} :
    MEvent.tunnelConnect q url ∉ (createWorkspace env fs dir files).2.2 := by
  intro h
  rcases createWorkspace_events h with ⟨p, hp⟩ | ⟨p, hp⟩ | ⟨p, c, hp⟩ <;> cases hp

theorem createWorkspace_no_kill {env : Env} {fs : FS} {dir : Path}
    {files : List (Path × String)} {pid : Nat} :
    MEvent.killSigterm pid ∉ (createWorkspace env fs dir files).2.2 := by
  intro h
  rcases createWorkspace_events h with ⟨p, hp⟩ | ⟨p, hp⟩ | ⟨p, c, hp⟩ <;> cases hp

theorem startMetro_none {env : Env} {s : ServiceState} {a : String} (n : String)
    (files : List (Path × String)) (h0 : alGet a s.instances = none) :
    startMetro env s a n files = startMetroPipeline env s a n files := by
  unfold startMetro
  rw [h0]

theorem startMetro_reuse {env : Env} {s : ServiceState} {a : String} (n : String)
    (files : List (Path × String)) {existing : MetroInstance}
    (hg : alGet a s.instances = some existing)
    (hr : (existing.isReady && truthy existing.tunnelUrl) = true) :
    startMetro env s a n files =
      ({ success := true
         tunnelUrl := existing.tunnelUrl
         bundleUrl := existing.bundleUrl
         port := some existing.port },
       { s with instances :=
           alSet a { existing with lastAccess := env.now } s.instances },
       []) := by
  unfold startMetro
  rw [hg]
  dsimp only
  rw [hr]
  rw [if_pos rfl]

theorem startMetro_stale {env : Env} {s : ServiceState} {a : String} (n : String)
    (files : List (Path × String)) {existing : MetroInstance}
    (hg : alGet a s.instances = some existing)
    (hnr : (existing.isReady && truthy existing.tunnelUrl) = false) :
    startMetro env s a n files =
      startMetroPipeline env
        { s with instances :=
            alSet a { existing with lastAccess := env.now } s.instances }
        a n files := by
  unfold startMetro
  rw [hg]
  dsimp only
  rw [hnr]
  rw [if_neg (by simp)]

theorem registryReadyB_get {s : ServiceState} {a : String} {inst : MetroInstance}
    (hWF : registryReadyB s = true) (hg : alGet a s.instances = some inst) :
    (inst.isReady && truthy inst.tunnelUrl) = true := by
  have hmem := mem_of_alGet hg
  unfold registryReadyB at hWF
  rw [List.all_eq_true] at hWF
  exact hWF (a, inst) hmem

/-- Full characterization of a successful run of the start pipeline. -/
theorem pipeline_success_run (env : Env) (s : ServiceState) (a n : String)
    (files : List (Path × String)) (p : Nat) (u : String)
    (hg : (getNextPort s).1 = some p) (hp : p ≠ 0)
    (hW : ∀ q, env.writeOk q = true)
    (hI : env.installOk = true) (hPr : env.probeOk 1 = true)
    (hT : env.tunnelResult = some u) (hu : ¬u = "") :
    startMetroPipeline env s a n files =
      ({ success := true
         tunnelUrl := some u
         bundleUrl := some (u ++ bundleSuffix)
         port := some p },
       { instances := alSet a (readyInst env s a n p u) s.instances
         portPool := s.portPool
         currentPortIndex := (s.currentPortIndex + 1) % s.portPool.length
         fs := (createWorkspace env s.fs (WORKSPACE_BASE ++ [a]) files).2.1
         nextPid := s.nextPid + 1 },
       MEvent.portAlloc p ::
         ((createWorkspace env s.fs (WORKSPACE_BASE ++ [a]) files).2.2 ++
          [MEvent.npmInstall (WORKSPACE_BASE ++ [a]),
           MEvent.spawn s.nextPid (WORKSPACE_BASE ++ [a]) p] ++
          [MEvent.tunnelConnect p u])) := by
  unfold startMetroPipeline
  rw [getNextPort_eq hg]
  dsimp only
  rw [if_neg hp]
  have hcw1 : (createWorkspace env s.fs (WORKSPACE_BASE ++ [a]) files).1 = none :=
    writeFilesLoop_ok (fun rel c _ => hW _)
  rcases hcw : createWorkspace env s.fs (WORKSPACE_BASE ++ [a]) files with ⟨err, fs2, trW⟩
  rw [hcw] at hcw1
  obtain rfl : err = none := hcw1
  dsimp only
  rw [startMetroProcess_ok hI]
  dsimp only
  rw [waitForMetroReady_first hPr]
  rw [if_pos rfl]
  have hct : createTunnel env p = (some u, [MEvent.tunnelConnect p u]) := by
    simp [createTunnel, hT]
  rw [hct]
  dsimp only
  rw [if_neg hu]
  rw [alSet_alSet]
  rfl

theorem stopMetro_fresh (s : ServiceState) (a : String) (inst : MetroInstance)
    (ht : inst.tunnelUrl = none) (hg : alGet a s.instances = some inst) :
    stopMetro s a =
      (true, { s with instances := alDel a s.instances },
       [MEvent.killSigterm inst.process, MEvent.scheduleSigkill inst.process]) := by
  rw [stopMetro_present hg, ht]
  simp [truthy]

/-- Any failing run of the start pipeline from a state holding no record for
the appId leaves no record for it, reports an error, kills every process it
spawned, and disconnects every tunnel it opened. -/
theorem pipeline_failure_run (env : Env) (s : ServiceState) (a n : String)
    (files : List (Path × String))
    (h0 : alGet a s.instances = none) (hEnv : env.tunnelResult ≠ some "")
    (hFail : (startMetroPipeline env s a n files).1.success = false) :
    alGet a (startMetroPipeline env s a n files).2.1.instances = none ∧
    (startMetroPipeline env s a n files).1.error.isSome = true ∧
    (∀ pid d q, MEvent.spawn pid d q ∈ (startMetroPipeline env s a n files).2.2 →
      MEvent.killSigterm pid ∈ (startMetroPipeline env s a n files).2.2) ∧
    (∀ q url, MEvent.tunnelConnect q url ∈ (startMetroPipeline env s a n files).2.2 →
      MEvent.tunnelDisconnect url ∈ (startMetroPipeline env s a n files).2.2) := by
  match hO : (getNextPort s).1 with
  | none =>
    have hP : startMetroPipeline env s a n files =
        (StartResult.fail "No available ports for Metro instance", s, []) := by
      unfold startMetroPipeline
      rw [getNextPort_eq_none hO]
    rw [hP]
    refine ⟨h0, rfl, ?_, ?_⟩
    · intro pid d q hmem
      simp at hmem
    · intro q url hmem
      simp at hmem
  | some p =>
    have hgp := getNextPort_eq hO
    by_cases hp0 : p = 0
    · subst hp0
      have hP : startMetroPipeline env s a n files =
          (StartResult.fail "No available ports for Metro instance",
           { s with currentPortIndex := (s.currentPortIndex + 1) % s.portPool.length },
           [MEvent.portAlloc 0]) := by
        unfold startMetroPipeline
        rw [hgp]
        dsimp only
        rw [if_pos rfl]
      rw [hP]
      refine ⟨h0, rfl, ?_, ?_⟩
      · intro pid d q hmem
        simp at hmem
      · intro q url hmem
        simp at hmem
    · rcases hcw : createWorkspace env s.fs (WORKSPACE_BASE ++ [a]) files
        with ⟨errW, fs2, trW⟩
      have htrW : trW = (createWorkspace env s.fs (WORKSPACE_BASE ++ [a]) files).2.2 := by
        rw [hcw]
      cases errW with
      | some e =>
        have hP : startMetroPipeline env s a n files =
            (StartResult.fail e,
             { instances := s.instances
               portPool := s.portPool
               currentPortIndex := (s.currentPortIndex + 1) % s.portPool.length
               fs := fs2
               nextPid := s.nextPid },
             MEvent.portAlloc p :: trW) := by
          unfold startMetroPipeline
          rw [hgp]
          dsimp only
          rw [if_neg hp0, hcw]
        rw [hP]
        refine ⟨h0, rfl, ?_, ?_⟩
        · intro pid d q hmem
          rcases List.mem_cons.mp hmem with h1 | h1
          · cases h1
          · rw [htrW] at h1
            exact absurd h1 createWorkspace_no_spawn
        · intro q url hmem
          rcases List.mem_cons.mp hmem with h1 | h1
          · cases h1
          · rw [htrW] at h1
            exact absurd h1 createWorkspace_no_tunnelConnect
      | none =>
        by_cases hI : env.installOk = true
        · by_cases hR : waitForMetroReady env 30 = true
          · cases hTc : env.tunnelResult with
            | none =>
              have hct : createTunnel env p = (none, []) := by
                simp [createTunnel, hTc]
              have hP : startMetroPipeline env s a n files =
                  (StartResult.fail "Failed to create ngrok tunnel",
                   { instances :=
                       alDel a (alSet a
                         { appId := a
                           appName := n
                           process := s.nextPid
                           workspaceDir := WORKSPACE_BASE ++ [a]
                           port := p
                           tunnelUrl := none
                           bundleUrl := none
                           startTime := env.now
                           lastAccess := env.now
                           isReady := false } s.instances)
                     portPool := s.portPool
                     currentPortIndex := (s.currentPortIndex + 1) % s.portPool.length
                     fs := fs2
                     nextPid := s.nextPid + 1 },
                   MEvent.portAlloc p ::
                     (trW ++
                      [MEvent.npmInstall (WORKSPACE_BASE ++ [a]),
                       MEvent.spawn s.nextPid (WORKSPACE_BASE ++ [a]) p] ++ [] ++
                      [MEvent.killSigterm s.nextPid,
                       MEvent.scheduleSigkill s.nextPid])) := by
                unfold startMetroPipeline
                rw [hgp]
                dsimp only
                rw [if_neg hp0, hcw]
                dsimp only
                rw [startMetroProcess_ok hI]
                dsimp only
                rw [hR, if_pos rfl, hct]
                dsimp only
                rw [stopMetro_fresh _ _ _ rfl (alGet_alSet_self _ _ _)]
              rw [hP]
              refine ⟨by rw [alGet_alDel_self], rfl, ?_, ?_⟩
              · intro pid d q hmem
                simp only [List.mem_cons, List.mem_append, List.append_nil,
                  List.not_mem_nil, or_false] at hmem ⊢
                rcases hmem with h1 | (h1 | h1 | h1) | h1 | h1
                · cases h1
                · rw [htrW] at h1
                  exact absurd h1 createWorkspace_no_spawn
                · cases h1
                · injection h1 with hpid hd hq
                  subst hpid
                  right
                  right
                  left
                  rfl
                · cases h1
                · cases h1
              · intro q url hmem
                simp only [List.mem_cons, List.mem_append, List.append_nil,
                  List.not_mem_nil, or_false] at hmem
                rcases hmem with h1 | (h1 | h1 | h1) | h1 | h1
                · cases h1
                · rw [htrW] at h1
                  exact absurd h1 createWorkspace_no_tunnelConnect
                · cases h1
                · cases h1
                · cases h1
                · cases h1
            | some url =>
              have hune : ¬url = "" := fun hc => hEnv (by rw [hTc, hc])
              have hct : createTunnel env p = (some url, [MEvent.tunnelConnect p url]) := by
                simp [createTunnel, hTc]
              have hP : (startMetroPipeline env s a n files).1.success = true := by
                unfold startMetroPipeline
                rw [hgp]
                dsimp only
                rw [if_neg hp0, hcw]
                dsimp only
                rw [startMetroProcess_ok hI]
                dsimp only
                rw [hR, if_pos rfl, hct]
                dsimp only
                rw [if_neg hune]
              rw [hP] at hFail
              cases hFail
          · have hRf : waitForMetroReady env 30 = false := Bool.of_not_eq_true hR
            have hP : startMetroPipeline env s a n files =
                (StartResult.fail "Metro failed to start within timeout",
                 { instances :=
                     alDel a (alSet a
                       { appId := a
                         appName := n
                         process := s.nextPid
                         workspaceDir := WORKSPACE_BASE ++ [a]
                         port := p
                         tunnelUrl := none
                         bundleUrl := none
                         startTime := env.now
                         lastAccess := env.now
                         isReady := false } s.instances)
                   portPool := s.portPool
                   currentPortIndex := (s.currentPortIndex + 1) % s.portPool.length
                   fs := fs2
                   nextPid := s.nextPid + 1 },
                 MEvent.portAlloc p ::
                   (trW ++
                    [MEvent.npmInstall (WORKSPACE_BASE ++ [a]),
                     MEvent.spawn s.nextPid (WORKSPACE_BASE ++ [a]) p] ++
                    [MEvent.killSigterm s.nextPid,
                     MEvent.scheduleSigkill s.nextPid])) := by
              unfold startMetroPipeline
              rw [hgp]
              dsimp only
              rw [if_neg hp0, hcw]
              dsimp only
              rw [startMetroProcess_ok hI]
              dsimp only
              rw [hRf, if_neg (by simp), stopMetro_fresh _ _ _ rfl (alGet_alSet_self _ _ _)]
            rw [hP]
            refine ⟨by rw [alGet_alDel_self], rfl, ?_, ?_⟩
            · intro pid d q hmem
              simp only [List.mem_cons, List.mem_append, List.not_mem_nil,
                or_false] at hmem ⊢
              rcases hmem with h1 | (h1 | h1 | h1) | h1 | h1
              · cases h1
              · rw [htrW] at h1
                exact absurd h1 createWorkspace_no_spawn
              · cases h1
              · injection h1 with hpid hd hq
                subst hpid
                right
                right
                left
                rfl
              · cases h1
              · cases h1
            · intro q url hmem
              simp only [List.mem_cons, List.mem_append, List.not_mem_nil,
                or_false] at hmem
              rcases hmem with h1 | (h1 | h1 | h1) | h1 | h1
              · cases h1
              · rw [htrW] at h1
                exact absurd h1 createWorkspace_no_tunnelConnect
              · cases h1
              · cases h1
              · cases h1
              · cases h1
        · have hIf : env.installOk = false := Bool.of_not_eq_true hI
          have hP : startMetroPipeline env s a n files =
              (StartResult.fail "npm install failed",
               { instances := s.instances
                 portPool := s.portPool
                 currentPortIndex := (s.currentPortIndex + 1) % s.portPool.length
                 fs := fs2
                 nextPid := s.nextPid },
               MEvent.portAlloc p ::
                 (trW ++ [MEvent.npmInstall (WORKSPACE_BASE ++ [a])])) := by
            unfold startMetroPipeline
            rw [hgp]
            dsimp only
            rw [if_neg hp0, hcw]
            dsimp only
            rw [startMetroProcess_err hIf]
          rw [hP]
          refine ⟨h0, rfl, ?_, ?_⟩
          · intro pid d q hmem
            simp only [List.mem_cons, List.mem_append, List.mem_singleton,
              List.not_mem_nil, or_false] at hmem
            rcases hmem with h1 | h1 | h1
            · cases h1
            · rw [htrW] at h1
              exact absurd h1 createWorkspace_no_spawn
            · cases h1
          · intro q url hmem
            simp only [List.mem_cons, List.mem_append, List.mem_singleton,
              List.not_mem_nil, or_false] at hmem
            rcases hmem with h1 | h1 | h1
            · cases h1
            · rw [htrW] at h1
              exact absurd h1 createWorkspace_no_tunnelConnect
            · cases h1

theorem alGet_stopAll_mem (l : List String) (s : ServiceState) {a : String} (h : a ∈ l) :
    alGet a (stopAll s l).1.instances = none := by
  induction l generalizing s with
  | nil => simp at h
  | cons x rest ih =>
    rcases List.mem_cons.mp h with rfl | h1
    · by_cases hr : a ∈ rest
      · exact ih _ hr
      · unfold stopAll
        dsimp only
        rw [alGet_stopAll_not_mem rest _ hr, alGet_stopMetro_self]
    · exact ih _ h1

theorem stopAll_kill {l : List String} {s : ServiceState} {a : String}
    {inst : MetroInstance} (hnd : l.Nodup) (h : a ∈ l)
    (hg : alGet a s.instances = some inst) :
    MEvent.killSigterm inst.process ∈ (stopAll s l).2 := by
  induction l generalizing s with
  | nil => simp at h
  | cons x rest ih =>
    unfold stopAll
    dsimp only
    rw [List.mem_append]
    rcases List.mem_cons.mp h with rfl | h1
    · left
      rw [stopMetro_present hg]
      simp
    · right
      have hax : a ≠ x := fun hc => (List.nodup_cons.mp hnd).1 (hc ▸ h1)
      exact ih (List.nodup_cons.mp hnd).2 h1 (by rw [alGet_stopMetro_ne _ hax]; exact hg)

/-! ### Claim theorems -/

/-- C2: from a freshly constructed service, the n-th port-allocator call
(counting from 0) returns the pool element at index n mod pool size — pure
round-robin over the fixed range 8081–8180, concretely 8081 + n mod 100;
the allocator returns the null sentinel exactly when the pool is empty; and
stopping an instance never touches the pool or the cursor, so the sequence is
independent of stops. -/
theorem C2_round_robin :
    (∀ n, nthAllocResult initState n =
        initState.portPool.get? (n % initState.portPool.length)) ∧
    (∀ n, nthAllocResult initState n = some (8081 + n % 100)) ∧
    (∀ s : ServiceState, (getNextPort s).1 = none ↔ s.portPool = []) ∧
    (∀ (s : ServiceState) (a : String),
      (stopMetro s a).2.1.portPool = s.portPool ∧
      (stopMetro s a).2.1.currentPortIndex = s.currentPortIndex) := by
  refine ⟨?_, nthAllocResult_init, getNextPort_none_iff,
    fun s a => ⟨stopMetro_portPool s a, stopMetro_idx s a⟩⟩
  intro n
  rw [nthAllocResult_init]
  rw [show initState.portPool = initializePortPool from rfl, initializePortPool_length]
  rw [initializePortPool_get _ (Nat.mod_lt _ (by norm_num))]

/-- Witness for C2 at concrete inputs. -/
theorem C2_round_robin_witness :
    nthAllocResult initState 0 = some 8081 ∧
    nthAllocResult initState 205 = some 8086 ∧
    ¬(getNextPort initState).1 = none ∧
    (stopMetro liveState "w").2.1.currentPortIndex = liveState.currentPortIndex := by
  refine ⟨C2_round_robin.2.1 0, C2_round_robin.2.1 205, ?_,
    (C2_round_robin.2.2.2 liveState "w").2⟩
  intro h
  exact absurd ((C2_round_robin.2.2.1 initState).mp h) (by decide)

set_option maxRecDepth 100000

/-- C1 fails on the code: start "a" (gets port 8081), then 99 installs that
fail but still consume a port each, then start "b": the cursor has wrapped,
so "a" and "b" are two distinct live records holding the same port 8081. -/
theorem C1_counterexample :
    (alGet "a" c1State.instances).map (fun i => i.port) = some 8081 ∧
    (alGet "b" c1State.instances).map (fun i => i.port) = some 8081 ∧
    "a" ≠ "b" := by
  decide

/-- C1 amended: two distinct allocator calls yield distinct ports whenever
they are fewer than pool-size (100) calls apart; live-instance port
uniqueness therefore holds only while fewer than 100 allocations separate
the allocations of any two live instances, not unconditionally. -/
theorem C1_amended_port_uniqueness (i j : Nat) (hij : i < j) (hspan : j - i < 100) :
    nthAllocResult initState i ≠ nthAllocResult initState j := by
  rw [nthAllocResult_init, nthAllocResult_init]
  intro h
  injection h with h
  omega

/-- Witness for the amended C1 at concrete call indices. -/
theorem C1_amended_witness :
    0 < 1 ∧ 1 - 0 < 100 ∧ nthAllocResult initState 0 ≠ nthAllocResult initState 1 :=
  ⟨by decide, by decide, C1_amended_port_uniqueness 0 1 (by decide) (by decide)⟩

/-- C3: every operation that removes an appId's record signals SIGTERM to the
record's owned process before the removal is observable: stopMetro on a live
record returns true, removes it, and its trace carries the SIGTERM; the
reaper sweep signals every record it removes; and startMetro never removes a
pre-existing record in any well-formed (all-ready) state. -/
theorem C3_removal_signals_termination :
    (∀ (s : ServiceState) (a : String) (inst : MetroInstance),
      alGet a s.instances = some inst →
      (stopMetro s a).1 = true ∧
      alGet a (stopMetro s a).2.1.instances = none ∧
      MEvent.killSigterm inst.process ∈ (stopMetro s a).2.2) ∧
    (∀ (now : Nat) (s : ServiceState) (a : String) (inst : MetroInstance),
      keysNodup s.instances →
      alGet a s.instances = some inst →
      alGet a (cleanupInactiveInstances now s).1.instances = none →
      MEvent.killSigterm inst.process ∈ (cleanupInactiveInstances now s).2) ∧
    (∀ (env : Env) (s : ServiceState) (a n : String)
      (files : List (Path × String)) (inst : MetroInstance),
      registryReadyB s = true →
      alGet a s.instances = some inst →
      (alGet a (startMetro env s a n files).2.1.instances).isSome = true) := by
  refine ⟨?_, ?_, ?_⟩
  · intro s a inst hg
    rw [stopMetro_present hg]
    exact ⟨rfl, alGet_alDel_self a s.instances, by simp⟩
  · intro now s a inst hn hg habs
    by_cases hmem : a ∈ staleIds now s.instances
    · exact stopAll_kill (staleIds_nodup hn) hmem hg
    · exfalso
      have : alGet a (cleanupInactiveInstances now s).1.instances = some inst := by
        have h1 := alGet_stopAll_not_mem (staleIds now s.instances) s hmem
        rw [show (cleanupInactiveInstances now s).1 =
          (stopAll s (staleIds now s.instances)).1 from rfl, h1]
        exact hg
      rw [this] at habs
      cases habs
  · intro env s a n files inst hWF hg
    have hr := registryReadyB_get hWF hg
    rw [startMetro_reuse n files hg hr]
    dsimp only
    rw [alGet_alSet_self]
    rfl

/-- Witness for C3 at a concrete live record. -/
theorem C3_witness :
    (stopMetro liveState "w").1 = true ∧
    MEvent.killSigterm liveInst.process ∈ (stopMetro liveState "w").2.2 := by
  refine ⟨?_, ?_⟩
  · exact (C3_removal_signals_termination.1 liveState "w" liveInst (by decide)).1
  · exact (C3_removal_signals_termination.1 liveState "w" liveInst (by decide)).2.2

/-- C6: stop on an unknown appId returns false with no state change and no
side effects; stop on a live appId returns true and an immediately following
status for that appId reports absent. -/
theorem C6_stop_semantics (now : Nat) (s : ServiceState) (a : String) :
    (alGet a s.instances = none → stopMetro s a = (false, s, [])) ∧
    (∀ inst, alGet a s.instances = some inst →
      (stopMetro s a).1 = true ∧ getStatus now (stopMetro s a).2.1 a = none) := by
  refine ⟨stopMetro_absent, fun inst hg => ⟨?_, ?_⟩⟩
  · rw [stopMetro_present hg]
  · unfold getStatus
    rw [alGet_stopMetro_self]

/-- Witness for C6: a missing appId and a live one. -/
theorem C6_witness :
    stopMetro initState "ghost" = (false, initState, []) ∧
    (stopMetro liveState "w").1 = true ∧
    getStatus 5 (stopMetro liveState "w").2.1 "w" = none := by
  refine ⟨(C6_stop_semantics 0 initState "ghost").1 rfl, ?_, ?_⟩
  · exact ((C6_stop_semantics 5 liveState "w").2 liveInst (by decide)).1
  · exact ((C6_stop_semantics 5 liveState "w").2 liveInst (by decide)).2

/-- C4: in any state whose held records are all fully ready (true of every
sequentially reachable state), with a tunnel provider that never returns the
empty URL, a start request that fails at any stage returns a result, not an
exception, carrying a stage-specific error message; leaves no registry entry
for the appId; kills every process it spawned; and closes every tunnel it
opened. -/
theorem C4_failed_start_cleanup (env : Env) (s : ServiceState) (a n : String)
    (files : List (Path × String))
    (hWF : registryReadyB s = true) (hEnv : env.tunnelResult ≠ some "")
    (hFail : (startMetro env s a n files).1.success = false) :
    alGet a (startMetro env s a n files).2.1.instances = none ∧
    (startMetro env s a n files).1.error.isSome = true ∧
    (∀ pid d q, MEvent.spawn pid d q ∈ (startMetro env s a n files).2.2 →
      MEvent.killSigterm pid ∈ (startMetro env s a n files).2.2) ∧
    (∀ q url, MEvent.tunnelConnect q url ∈ (startMetro env s a n files).2.2 →
      MEvent.tunnelDisconnect url ∈ (startMetro env s a n files).2.2) := by
  match hg : alGet a s.instances with
  | some existing =>
    exfalso
    have hr := registryReadyB_get hWF hg
    rw [startMetro_reuse n files hg hr] at hFail
    simp at hFail
  | none =>
    rw [startMetro_none n files hg] at hFail ⊢
    exact pipeline_failure_run env s a n files hg hEnv hFail

/-- Witness for C4: an install failure on a fresh service. -/
theorem C4_witness :
    registryReadyB initState = true ∧
    envInstallFail.tunnelResult ≠ some "" ∧
    (startMetro envInstallFail initState "a" "A" []).1.success = false ∧
    alGet "a" (startMetro envInstallFail initState "a" "A" []).2.1.instances = none := by
  refine ⟨by decide, by decide, by decide, ?_⟩
  exact (C4_failed_start_cleanup envInstallFail initState "a" "A" []
    (by decide) (by decide) (by decide)).1

/-- C7: one reaper sweep at time `now` stops and removes exactly the records
whose last access is older than METRO_TIMEOUT (signalling each), and leaves
every record accessed within the threshold exactly as it was. -/
theorem C7_sweep_exact (now : Nat) (s : ServiceState) (hn : keysNodup s.instances)
    (a : String) :
    (∀ inst, alGet a s.instances = some inst →
      if METRO_TIMEOUT < now - inst.lastAccess
      then alGet a (cleanupInactiveInstances now s).1.instances = none ∧
           MEvent.killSigterm inst.process ∈ (cleanupInactiveInstances now s).2
      else alGet a (cleanupInactiveInstances now s).1.instances = some inst) ∧
    (alGet a s.instances = none →
      alGet a (cleanupInactiveInstances now s).1.instances = none) := by
  constructor
  · intro inst hg
    by_cases hstale : METRO_TIMEOUT < now - inst.lastAccess
    · rw [if_pos hstale]
      have hmem : a ∈ staleIds now s.instances := (mem_staleIds hn).mpr ⟨inst, hg, hstale⟩
      exact ⟨alGet_stopAll_mem _ _ hmem, stopAll_kill (staleIds_nodup hn) hmem hg⟩
    · rw [if_neg hstale]
      have hmem : a ∉ staleIds now s.instances := by
        intro hc
        obtain ⟨inst2, hg2, hstale2⟩ := (mem_staleIds hn).mp hc
        rw [hg] at hg2
        injection hg2 with hg2
        subst hg2
        exact hstale hstale2
      have h1 := alGet_stopAll_not_mem (staleIds now s.instances) s hmem
      rw [show (cleanupInactiveInstances now s).1 =
        (stopAll s (staleIds now s.instances)).1 from rfl, h1]
      exact hg
  · intro hg
    by_cases hmem : a ∈ staleIds now s.instances
    · exact alGet_stopAll_mem _ _ hmem
    · have h1 := alGet_stopAll_not_mem (staleIds now s.instances) s hmem
      rw [show (cleanupInactiveInstances now s).1 =
        (stopAll s (staleIds now s.instances)).1 from rfl, h1]
      exact hg

/-- Witness for C7: a stale record is reaped, a fresh one kept, at concrete
times. -/
theorem C7_witness :
    keysNodup pendingState.instances ∧
    alGet "x" ((cleanupInactiveInstances (METRO_TIMEOUT + 1) pendingState).1.instances)
      = none ∧
    alGet "x" ((cleanupInactiveInstances METRO_TIMEOUT pendingState).1.instances)
      = some pendingInst := by
  have hn : keysNodup pendingState.instances := by
    unfold keysNodup
    decide
  refine ⟨hn, ?_, ?_⟩
  · have h := (C7_sweep_exact (METRO_TIMEOUT + 1) pendingState hn "x").1 pendingInst
      (by decide)
    rw [if_pos (by decide)] at h
    exact h.1
  · have h := (C7_sweep_exact METRO_TIMEOUT pendingState hn "x").1 pendingInst (by decide)
    rw [if_neg (by decide)] at h
    exact h

/-- C8 is false of the code: cleanupInactiveInstances never consults isReady,
so a stale record with isReady = false is stopped and removed by the sweep. -/
theorem C8_counterexample :
    pendingInst.isReady = false ∧
    alGet "x" pendingState.instances = some pendingInst ∧
    alGet "x" ((cleanupInactiveInstances (METRO_TIMEOUT + 1) pendingState).1.instances)
      = none := by
  decide

/-- C8 amended: the reaper sweep treats ready and non-ready records alike —
a record with isReady = false is left in the registry by a sweep exactly when
its lastAccessTime is within the idle threshold, not regardless of it. -/
theorem C8_amended_sweep_ignores_ready (now : Nat) (s : ServiceState)
    (hn : keysNodup s.instances) (a : String) (inst : MetroInstance)
    (hg : alGet a s.instances = some inst) (hnr : inst.isReady = false) :
    (now - inst.lastAccess ≤ METRO_TIMEOUT →
      alGet a (cleanupInactiveInstances now s).1.instances = some inst) ∧
    (METRO_TIMEOUT < now - inst.lastAccess →
      alGet a (cleanupInactiveInstances now s).1.instances = none) := by
  constructor
  · intro hfresh
    have hmem : a ∉ staleIds now s.instances := by
      intro hc
      obtain ⟨inst2, hg2, hstale2⟩ := (mem_staleIds hn).mp hc
      rw [hg] at hg2
      injection hg2 with hg2
      subst hg2
      exact absurd hstale2 (by omega)
    have h1 := alGet_stopAll_not_mem (staleIds now s.instances) s hmem
    rw [show (cleanupInactiveInstances now s).1 =
      (stopAll s (staleIds now s.instances)).1 from rfl, h1]
    exact hg
  · intro hstale
    exact alGet_stopAll_mem _ _ ((mem_staleIds hn).mpr ⟨inst, hg, hstale⟩)

/-- Witness for the amended C8: a recently-accessed non-ready record survives
the sweep. -/
theorem C8_amended_witness :
    pendingInst.isReady = false ∧
    alGet "x" ((cleanupInactiveInstances 5 pendingState).1.instances)
      = some pendingInst := by
  refine ⟨rfl, ?_⟩
  exact (C8_amended_sweep_ignores_ready 5 pendingState
    (by unfold keysNodup; decide) "x" pendingInst (by decide) rfl).1 (by decide)

/-- C5: after a successful first start (environment makes every stage
succeed), a second start for the same appId succeeds with the same tunnelUrl,
bundleUrl and port, emits no side effects at all (no provisioning, no port
allocation, no launch), refreshes the record's lastAccess to the second
call's clock, and leaves cursor, filesystem and pid counter untouched. -/
theorem C5_ready_reuse (env1 env2 : Env) (s : ServiceState) (a n : String)
    (files : List (Path × String)) (p : Nat) (u : String)
    (h0 : alGet a s.instances = none)
    (hg : (getNextPort s).1 = some p) (hp : p ≠ 0)
    (hW : ∀ q, env1.writeOk q = true) (hI : env1.installOk = true)
    (hPr : env1.probeOk 1 = true) (hT : env1.tunnelResult = some u) (hu : ¬u = "") :
    (startMetro env1 s a n files).1.success = true ∧
    (startMetro env2 (startMetro env1 s a n files).2.1 a n files).1 =
      { success := true
        tunnelUrl := (startMetro env1 s a n files).1.tunnelUrl
        bundleUrl := (startMetro env1 s a n files).1.bundleUrl
        port := (startMetro env1 s a n files).1.port } ∧
    (startMetro env2 (startMetro env1 s a n files).2.1 a n files).2.2 = [] ∧
    (alGet a (startMetro env2 (startMetro env1 s a n files).2.1 a n files).2.1.instances).map
      (fun i => i.lastAccess) = some env2.now ∧
    (startMetro env2 (startMetro env1 s a n files).2.1 a n files).2.1.currentPortIndex =
      (startMetro env1 s a n files).2.1.currentPortIndex ∧
    (startMetro env2 (startMetro env1 s a n files).2.1 a n files).2.1.fs =
      (startMetro env1 s a n files).2.1.fs ∧
    (startMetro env2 (startMetro env1 s a n files).2.1 a n files).2.1.nextPid =
      (startMetro env1 s a n files).2.1.nextPid := by
  have h1 : startMetro env1 s a n files =
      ({ success := true
         tunnelUrl := some u
         bundleUrl := some (u ++ bundleSuffix)
         port := some p },
       { instances := alSet a (readyInst env1 s a n p u) s.instances
         portPool := s.portPool
         currentPortIndex := (s.currentPortIndex + 1) % s.portPool.length
         fs := (createWorkspace env1 s.fs (WORKSPACE_BASE ++ [a]) files).2.1
         nextPid := s.nextPid + 1 },
       MEvent.portAlloc p ::
         ((createWorkspace env1 s.fs (WORKSPACE_BASE ++ [a]) files).2.2 ++
          [MEvent.npmInstall (WORKSPACE_BASE ++ [a]),
           MEvent.spawn s.nextPid (WORKSPACE_BASE ++ [a]) p] ++
          [MEvent.tunnelConnect p u])) := by
    rw [startMetro_none n files h0]
    exact pipeline_success_run env1 s a n files p u hg hp hW hI hPr hT hu
  rw [h1]
  dsimp only
  have hr2 : ((readyInst env1 s a n p u).isReady &&
      truthy (readyInst env1 s a n p u).tunnelUrl) = true := by
    simp [readyInst, truthy, hu]
  rw [startMetro_reuse n files (alGet_alSet_self a (readyInst env1 s a n p u) s.instances) hr2]
  refine ⟨rfl, rfl, rfl, ?_, rfl, rfl, rfl⟩
  dsimp only
  rw [alSet_alSet, alGet_alSet_self]
  rfl

/-- Witness for C5 on a fresh service with the all-success environment. -/
theorem C5_witness :
    (startMetro envOK initState "a" "A" []).1.success = true ∧
    (startMetro envOK (startMetro envOK initState "a" "A" []).2.1 "a" "A" []).2.2 = [] := by
  have h := C5_ready_reuse envOK envOK initState "a" "A" [] 8081 "https://t.example"
    (by decide) (by decide) (by decide) (fun q => rfl) rfl rfl rfl (by decide)
  exact ⟨h.1, h.2.2.1⟩

theorem pipeline_ws_fail_no_spawn (env : Env) (s : ServiceState) (a n : String)
    (files : List (Path × String))
    (hcwf : (createWorkspace env s.fs (WORKSPACE_BASE ++ [a]) files).1.isSome = true) :
    ∀ pid d q, MEvent.spawn pid d q ∉ (startMetroPipeline env s a n files).2.2 := by
  intro pid d q
  match hO : (getNextPort s).1 with
  | none =>
    have hP : startMetroPipeline env s a n files =
        (StartResult.fail "No available ports for Metro instance", s, []) := by
      unfold startMetroPipeline
      rw [getNextPort_eq_none hO]
    rw [hP]
    simp
  | some p =>
    have hgp := getNextPort_eq hO
    by_cases hp0 : p = 0
    · subst hp0
      have hP : startMetroPipeline env s a n files =
          (StartResult.fail "No available ports for Metro instance",
           { s with currentPortIndex := (s.currentPortIndex + 1) % s.portPool.length },
           [MEvent.portAlloc 0]) := by
        unfold startMetroPipeline
        rw [hgp]
        dsimp only
        rw [if_pos rfl]
      rw [hP]
      simp
    · obtain ⟨e, he⟩ := Option.isSome_iff_exists.mp hcwf
      rcases hcw : createWorkspace env s.fs (WORKSPACE_BASE ++ [a]) files
        with ⟨errW, fs2, trW⟩
      have htrW : trW = (createWorkspace env s.fs (WORKSPACE_BASE ++ [a]) files).2.2 := by
        rw [hcw]
      rw [hcw] at he
      obtain rfl : errW = some e := he
      have hP : startMetroPipeline env s a n files =
          (StartResult.fail e,
           { instances := s.instances
             portPool := s.portPool
             currentPortIndex := (s.currentPortIndex + 1) % s.portPool.length
             fs := fs2
             nextPid := s.nextPid },
           MEvent.portAlloc p :: trW) := by
        unfold startMetroPipeline
        rw [hgp]
        dsimp only
        rw [if_neg hp0, hcw]
      rw [hP]
      intro hmem
      rcases List.mem_cons.mp hmem with h1 | h1
      · cases h1
      · rw [htrW] at h1
        exact absurd h1 createWorkspace_no_spawn

/-- C9: a successful provision leaves the workspace directory holding exactly
the given files with the given contents — everything previously under the
directory is gone, everything outside it untouched — whatever existed before;
if some write fails the provision reports failure and the start request never
spawns a process. -/
theorem C9_provision_exact (env : Env) (fs : FS) (dir : Path)
    (files : List (Path × String)) (hnd : (files.map (fun e => e.1)).Nodup) :
    ((createWorkspace env fs dir files).1 = none →
      (∀ rel c, (rel, c) ∈ files →
        alGet (dir ++ rel) (createWorkspace env fs dir files).2.1 = some c) ∧
      (∀ p, dir.isPrefixOf p = true →
        (alGet p (createWorkspace env fs dir files).2.1).isSome = true →
        ∃ rel, rel ∈ files.map (fun e => e.1) ∧ p = dir ++ rel) ∧
      (∀ p, dir.isPrefixOf p = false →
        alGet p (createWorkspace env fs dir files).2.1 = alGet p fs)) ∧
    ((∃ rel c, (rel, c) ∈ files ∧ env.writeOk (dir ++ rel) = false) →
      (createWorkspace env fs dir files).1.isSome = true) ∧
    (∀ (s : ServiceState) (a n : String),
      (createWorkspace env s.fs (WORKSPACE_BASE ++ [a]) files).1.isSome = true →
      ∀ pid d q, MEvent.spawn pid d q ∉ (startMetro env s a n files).2.2) := by
  refine ⟨?_, ?_, ?_⟩
  · intro hok
    have hok' : (writeFilesLoop env dir files (rmRecursive fs dir)).1 = none := hok
    refine ⟨?_, ?_, ?_⟩
    · intro rel c hm
      exact writeFilesLoop_written hnd hm hok'
    · intro p hpre hsome
      by_contra hc
      push_neg at hc
      have hp : ∀ rel c, (rel, c) ∈ files → p ≠ dir ++ rel := fun rel c hm =>
        hc rel (List.mem_map.mpr ⟨(rel, c), hm, rfl⟩)
      have h1 : alGet p (createWorkspace env fs dir files).2.1
          = alGet p (rmRecursive fs dir) := writeFilesLoop_not_written hp
      rw [h1, alGet_rmRecursive_under hpre] at hsome
      cases hsome
    · intro p hpre
      have hp : ∀ rel c, (rel, c) ∈ files → p ≠ dir ++ rel := by
        intro rel c hm hc
        rw [hc, isPrefixOf_append] at hpre
        cases hpre
      have h1 : alGet p (createWorkspace env fs dir files).2.1
          = alGet p (rmRecursive fs dir) := writeFilesLoop_not_written hp
      rw [h1, alGet_rmRecursive_not_under hpre]
  · rintro ⟨rel, c, hm, hw⟩
    exact writeFilesLoop_err hm hw
  · intro s a n hcwf pid d q
    match hg : alGet a s.instances with
    | some existing =>
      match hready : (existing.isReady && truthy existing.tunnelUrl) with
      | true =>
        rw [startMetro_reuse n files hg hready]
        simp
      | false =>
        rw [startMetro_stale n files hg hready]
        exact pipeline_ws_fail_no_spawn env
          { s with instances :=
              alSet a { existing with lastAccess := env.now } s.instances }
          a n files hcwf pid d q
    | none =>
      rw [startMetro_none n files hg]
      exact pipeline_ws_fail_no_spawn env s a n files hcwf pid d q

/-- Witness for C9: a one-file provision on a concrete dirty filesystem. -/
theorem C9_witness :
    ([(["index.js"], "x")].map (fun e => (e : Path × String).1)).Nodup ∧
    alGet (["tmp", "metro-apps", "a"] ++ ["index.js"])
      (createWorkspace envOK [(["tmp", "metro-apps", "a", "old.js"], "junk")]
        ["tmp", "metro-apps", "a"] [(["index.js"], "x")]).2.1 = some "x" := by
  refine ⟨by decide, ?_⟩
  exact ((C9_provision_exact envOK [(["tmp", "metro-apps", "a", "old.js"], "junk")]
    ["tmp", "metro-apps", "a"] [(["index.js"], "x")] (by decide)).1 (by decide)).1
    ["index.js"] "x" (by decide)

/-- C10: a start for an appId whose record is not ready (or lacks a truthy
tunnelUrl) refreshes the record's lastAccess and runs the full pipeline
anyway: it allocates a fresh port, re-provisions the workspace, spawns a
second process, and replaces the registry record with the new one — and the
old record's child process is never signalled for termination. -/
theorem C10_stale_restart (env : Env) (s : ServiceState) (a n : String)
    (files : List (Path × String)) (existing : MetroInstance) (p : Nat) (u : String)
    (hg0 : alGet a s.instances = some existing)
    (hnr : (existing.isReady && truthy existing.tunnelUrl) = false)
    (hg : (getNextPort s).1 = some p) (hp : p ≠ 0)
    (hW : ∀ q, env.writeOk q = true) (hI : env.installOk = true)
    (hPr : env.probeOk 1 = true) (hT : env.tunnelResult = some u) (hu : ¬u = "") :
    (startMetro env s a n files).1.success = true ∧
    (startMetro env s a n files).1.port = some p ∧
    (startMetro env s a n files).1.tunnelUrl = some u ∧
    alGet a (startMetro env s a n files).2.1.instances = some (readyInst env s a n p u) ∧
    MEvent.portAlloc p ∈ (startMetro env s a n files).2.2 ∧
    MEvent.rmDir (WORKSPACE_BASE ++ [a]) ∈ (startMetro env s a n files).2.2 ∧
    MEvent.spawn s.nextPid (WORKSPACE_BASE ++ [a]) p ∈ (startMetro env s a n files).2.2 ∧
    (∀ pid, MEvent.killSigterm pid ∉ (startMetro env s a n files).2.2) := by
  rw [startMetro_stale n files hg0 hnr]
  have hg' : (getNextPort
      { s with instances := alSet a { existing with lastAccess := env.now } s.instances }).1
      = some p := by
    rw [getNextPort_fst_set_instances]
    exact hg
  rw [pipeline_success_run env _ a n files p u hg' hp hW hI hPr hT hu]
  refine ⟨rfl, rfl, rfl, ?_, ?_, ?_, ?_, ?_⟩
  · dsimp only
    rw [alGet_alSet_self]
    rfl
  · simp
  · simp [createWorkspace]
  · simp
  · intro pid hmem
    simp only [List.mem_cons, List.mem_append, List.not_mem_nil, or_false] at hmem
    rcases hmem with h1 | (h1 | h1 | h1) | h1
    · cases h1
    · exact absurd h1 createWorkspace_no_kill
    · cases h1
    · cases h1
    · cases h1

/-- Witness for C10: restarting the concrete pending (not ready) record; its
old process (pid 7) receives no termination signal. -/
theorem C10_witness :
    (startMetro envOK pendingState "x" "X" []).1.success = true ∧
    MEvent.killSigterm pendingInst.process ∉ (startMetro envOK pendingState "x" "X" []).2.2 := by
  have h := C10_stale_restart envOK pendingState "x" "X" [] pendingInst 8081
    "https://t.example" (by decide) (by decide) (by decide) (by decide)
    (fun q => rfl) rfl rfl rfl (by decide)
  exact ⟨h.1, h.2.2.2.2.2.2.2 pendingInst.process⟩

end Metro
